import Mathlib

/-!
Verification development for the de novo clustering package.

Part 1 embeds `src/src/analyse_de_novos.py` (class `AnalyseDeNovos`):
the adaptive Monte Carlo significance engine, the coordinate conversion
step, and the geometric-mean helper.

Part 2 embeds `src/denovonear/site_specific_rates.py` (class `SiteRates`
and its module-level helpers): per-site consequence classification and
rate-sampler construction.

Modelling conventions:
* Python floats are modelled as `ℚ` (probabilities, scores, rates).  The
  only float equality the engine tests is `sim_prob == minimum_prob`,
  and in the executions analysed here both sides are produced by the
  same division of the same integers, so the rational model agrees with
  float semantics.
* The random generator behind `weights.choice()` is determinised as a
  stream `draw : ℕ → ℤ` indexed by the global number of draws made so
  far; each simulation trial makes exactly `sample_n` draws.
* A Python value that is either a float or a string (the observed
  statistic can be a number or `"NA"`) is modelled by `PyVal`.
  Python raises `TypeError` when ordering a float against a string; the
  executions analysed here only ever compare homogeneous values, so
  `pyle` fixes an arbitrary total order across the two constructors
  (never exercised) and agrees with Python on homogeneous comparisons.
* Fallible steps return `Except PyErr`.
-/

/-- Python-level values flowing through the analyser: floats or strings. -/
inductive PyVal where
  | num (q : ℚ)
  | str (s : String)
deriving DecidableEq, Repr

/-- Python exceptions that the modelled code can raise. -/
inductive PyErr where
  | valueError
  | typeError
  | indexError
  | zeroDivisionError
deriving DecidableEq, Repr

/-- Lexicographic comparison on character lists, as Python compares
strings (by code point). -/
def str_le : List Char → List Char → Bool
  | [], _ => true
  | _ :: _, [] => false
  | a :: as, b :: bs => if a < b then true else if a = b then str_le as bs else false

/-- Ordering used by `dist.sort()` and `bisect.bisect_right`.  On a pair
of numbers or a pair of strings it is Python's order; a number/string
comparison would raise `TypeError` in Python and never occurs in the
runs analysed here, so the cross cases are fixed arbitrarily. -/
def pyle : PyVal → PyVal → Bool
  | .num a, .num b => decide (a ≤ b)
  | .str a, .str b => str_le a.data b.data
  | .num _, .str _ => true
  | .str _, .num _ => false

/-- The propositional form of `pyle`, used as the sorting relation. -/
def PyLe (a b : PyVal) : Prop := pyle a b = true

instance : DecidableRel PyLe := fun _ _ => inferInstanceAs (Decidable (_ = true))

/-- `dist.sort()`: Python's in-place sort, modelled functionally. -/
def pysort (l : List PyVal) : List PyVal := List.insertionSort PyLe l

/-- `bisect.bisect_right(a, x)` on a sorted list equals the number of
elements `≤ x` (the right-side insertion point). -/
def bisect_right (a : List PyVal) (x : PyVal) : ℕ := a.countP (fun y => pyle y x)

/-- Lines 83-84 of `analyse_de_novos.py`: the per-round p-value
`(1 + pos) / (1 + len(dist))` with `pos = bisect.bisect_right(dist, observed)`. -/
def round_p (dist : List PyVal) (observed : PyVal) : ℚ :=
  (1 + (bisect_right dist observed : ℚ)) / (1 + (dist.length : ℚ))

/-- The score of the `t`-th simulation trial (0-based): `sample_n`
positions drawn from the determinised stream (global draw indices
`t * sample_n + j`), passed to the scoring strategy `get_score`. -/
def trialScore (get_score : List ℤ → PyVal) (draw : ℕ → ℤ) (sample_n t : ℕ) : PyVal :=
  get_score ((List.range sample_n).map (fun j => draw (t * sample_n + j)))

/-- The `while iteration < max_iter` loop of `simulate_distribution`
(lines 109-123): starting from the current `dist`, append one trial
score per iteration.  The loop adds exactly one element per pass, so
`max_iter - len(dist)` passes remain; that count is the structural fuel. -/
def sim_go (get_score : List ℤ → PyVal) (draw : ℕ → ℤ) (sample_n : ℕ) :
    List PyVal → ℕ → List PyVal
  | dist, 0 => dist
  | dist, fuel + 1 =>
      sim_go get_score draw sample_n
        (dist ++ [trialScore get_score draw sample_n dist.length]) fuel

/-- `AnalyseDeNovos.simulate_distribution` (lines 97-129) with the
accumulator passed explicitly: extend `dist` to `max_iter` simulated
scores, then sort. -/
def simulate_distribution (get_score : List ℤ → PyVal) (draw : ℕ → ℤ)
    (dist : List PyVal) (sample_n max_iter : ℕ) : List PyVal :=
  pysort (sim_go get_score draw sample_n dist (max_iter - dist.length))

/-- Python's `dist=[]` default parameter of `simulate_distribution` is a
single mutable list, created once and mutated in place by `append` and
`sort`; after a call that relied on the default, the default object
holds the returned list.  A call omitting `dist` is therefore a state
transformer on that shared list: it returns the result together with
the new state of the default object (which is the same list). -/
def simulate_distribution_default (get_score : List ℤ → PyVal) (draw : ℕ → ℤ)
    (sample_n max_iter : ℕ) (default_dist : List PyVal) :
    List PyVal × List PyVal :=
  let r := simulate_distribution get_score draw default_dist sample_n max_iter
  (r, r)

/-- The adaptive `while iterations < 100000000 and sim_prob == minimum_prob`
loop (lines 79-86).  Each pass recomputes the resolution floor, extends
and re-sorts the distribution, recomputes the p-value and advances the
budget by 1,000,000.  The budget grows by 1,000,000 per pass and the
loop stops once it reaches 100,000,000, so at most 100 passes run from
any start; the structural fuel (101 from the call site) dominates that
bound and never truncates the loop. -/
def adaptive_loop (get_score : List ℤ → PyVal) (draw : ℕ → ℤ) (observed : PyVal)
    (sample_n : ℕ) : ℕ → ℕ → ℚ → ℚ → List PyVal → ℚ × List PyVal
  | 0, _, _, sim_prob, dist => (sim_prob, dist)
  | fuel + 1, iterations, minimum_prob, sim_prob, dist =>
      if iterations < 100000000 ∧ sim_prob = minimum_prob then
        adaptive_loop get_score draw observed sample_n fuel (iterations + 1000000)
          (1 / (1 + (iterations : ℚ)))
          (round_p (simulate_distribution get_score draw dist sample_n iterations) observed)
          (simulate_distribution get_score draw dist sample_n iterations)
      else (sim_prob, dist)

/-- `AnalyseDeNovos.convert_de_novos_to_cds_positions` (lines 131-146):
convert each position in order; there is no exception handling, so the
first conversion error propagates. -/
def convert_de_novos_to_cds_positions (convert : ℤ → Except PyErr ℤ) :
    List ℤ → Except PyErr (List ℤ)
  | [] => .ok []
  | p :: ps =>
      match convert p with
      | .error e => .error e
      | .ok c =>
          match convert_de_novos_to_cds_positions convert ps with
          | .error e => .error e
          | .ok cs => .ok (c :: cs)

/-- A 1-decimal fixed-point rendering standing in for
`"{0:0.1f}".format` (a stdlib facility, not repository code).  No claim
depends on the digits produced, only on a string being produced. -/
def format_1dp (q : ℚ) : String :=
  let n : ℤ := round (q * 10)
  toString (n / 10) ++ "." ++ toString ((n % 10).natAbs)

/-- Lines 92-93: `if type(observed_value) != "str": observed_value =
"{0:0.1f}".format(observed_value)`.  The comparison puts a type object
against the string literal `"str"`, which is never equal, so the
formatting is applied unconditionally; applying the `0.1f` format code
to an actual string (the `"NA"` case) raises `ValueError`. -/
def format_observed : PyVal → Except PyErr PyVal
  | .num q => .ok (.str (format_1dp q))
  | .str _ => .error .valueError

/-- `AnalyseDeNovos.analyse_de_novos` (lines 48-95).  `convert` is the
transcript's chromosome-to-CDS conversion, `get_score` the pluggable
scoring strategy (`self.get_score`), `draw` the determinised sampler
stream, `iterations` the starting budget. -/
def analyse_de_novos (convert : ℤ → Except PyErr ℤ) (get_score : List ℤ → PyVal)
    (draw : ℕ → ℤ) (de_novos : List ℤ) (iterations : ℕ) :
    Except PyErr (PyVal × PyVal) :=
  if de_novos.length < 2 then .ok (.str "NA", .str "NA")
  else
    match convert_de_novos_to_cds_positions convert de_novos with
    | .error e => .error e
    | .ok cds_positions =>
        let observed := get_score cds_positions
        let minimum_prob : ℚ := 1 / (1 + (iterations : ℚ))
        let pd := adaptive_loop get_score draw observed de_novos.length
          101 iterations minimum_prob minimum_prob []
        match format_observed observed with
        | .error e => .error e
        | .ok s => .ok (s, .num pd.1)

/-- `analyse_de_novos` in state-threaded form over the shared default
list of `simulate_distribution`.  The method sets `dist = []` locally
(line 70) and always passes it explicitly (line 82), so it neither
reads nor mutates the shared default object. -/
def analyse_de_novos_st (convert : ℤ → Except PyErr ℤ) (get_score : List ℤ → PyVal)
    (draw : ℕ → ℤ) (de_novos : List ℤ) (iterations : ℕ)
    (default_dist : List PyVal) : Except PyErr (PyVal × PyVal) × List PyVal :=
  (analyse_de_novos convert get_score draw de_novos iterations, default_dist)

/-- `AnalyseDeNovos.product` (lines 148-152): `reduce(operator.mul, iterable, 1)`. -/
def product (values : List ℚ) : ℚ := values.foldl (· * ·) 1

/-- `AnalyseDeNovos.geomean` (lines 154-171).  `x ** (1/len)` is real
exponentiation; `1/len(values)` raises `ZeroDivisionError` on an empty
list, modelled by the explicit guard. -/
noncomputable def geomean (values : List ℚ) : Except PyErr ℝ :=
  if 0 ∈ values then
    let shifted := values.map (· + 1)
    if shifted.length = 0 then .error .zeroDivisionError
    else .ok ((product shifted : ℝ) ^ ((1 : ℝ) / (shifted.length : ℝ)) - 1)
  else
    if values.length = 0 then .error .zeroDivisionError
    else .ok ((product values : ℝ) ^ ((1 : ℝ) / (values.length : ℝ)))

/-!
Part 2: embedding of `src/denovonear/site_specific_rates.py`.

* A trinucleotide context is a triple of characters (`get_trinucleotide`
  always yields three bases; `seq[0]`, `seq[1]`, `seq[2]`).
* A transcript (`Transcript` object, called `gene` in `SiteRates`) is a
  record of the methods the module consumes.
* Amino acids are the strings returned by `translate`, `Option`al
  because non-coding positions have no codon (`initial_aa = None`);
  Python's `None != "*"` is true, matching `none ≠ some "*"`.
* `check_position` is modelled as the list of `(category, entry)`
  insertions it performs on the per-category samplers, in order.
-/

/-- A 3-character sequence context (`seq[0]`, `seq[1]`, `seq[2]`). -/
structure Seq3 where
  c0 : Char
  c1 : Char
  c2 : Char
deriving DecidableEq, Repr

/-- The capability surface of a `Transcript` object consumed by
`site_specific_rates.py`. -/
structure Gene where
  get_cds_start : ℤ
  get_cds_end : ℤ
  get_strand : String
  in_coding_region : ℤ → Bool
  find_closest_exon : ℤ → ℤ × ℤ
  chrom_pos_to_cds : ℤ → ℤ
  get_codon_number_for_cds_position : ℤ → ℤ
  get_position_within_codon : ℤ → ℕ
  get_codon_sequence : ℤ → List Char
  translate : List Char → String
  get_trinucleotide : ℤ → Seq3
  reverse_complement : Seq3 → Seq3

/-- `get_boundary_distance` (lines 42-62): minimum distance to either
edge of the closest exon, plus one for positions inside the coding
region. -/
def get_boundary_distance (g : Gene) (bp : ℤ) : ℤ :=
  let p := g.find_closest_exon bp
  let distance := min |p.1 - bp| |p.2 - bp|
  if g.in_coding_region bp = true then distance + 1 else distance

/-- The dictionary returned by `get_codon_info` (lines 39-40); the four
codon fields are `None` for non-coding positions. -/
structure CodonInfo where
  cds_pos : ℤ
  codon_seq : Option (List Char)
  intra_codon : Option ℕ
  codon_number : Option ℤ
  initial_aa : Option String

/-- `get_codon_info` (lines 6-40): raises `IndexError` for a non-coding
position at boundary distance ≥ 9; otherwise returns the codon details,
with the codon fields `None` outside the coding region. -/
def get_codon_info (g : Gene) (bp boundary_dist : ℤ) : Except PyErr CodonInfo :=
  if 9 ≤ boundary_dist ∧ g.in_coding_region bp = false then .error .indexError
  else
    let cds_pos := g.chrom_pos_to_cds bp
    if g.in_coding_region bp = true then
      let codon_number := g.get_codon_number_for_cds_position cds_pos
      let intra_codon := g.get_position_within_codon cds_pos
      let codon_seq := g.get_codon_sequence codon_number
      let initial_aa := g.translate codon_seq
      .ok ⟨cds_pos, some codon_seq, some intra_codon, some codon_number, some initial_aa⟩
    else .ok ⟨cds_pos, none, none, none, none⟩

/-- `get_mutated_aa` (lines 85-103): substitute `base` at position
`intra_codon` of the codon and translate. -/
def get_mutated_aa (g : Gene) (base : Char) (codon : List Char) (intra_codon : ℕ) : String :=
  g.translate (codon.set intra_codon base)

/-- The consequence categories (`SiteRates.categories`). -/
inductive Category where
  | missense
  | nonsense
  | synonymous
  | splice_lof
  | splice_region
  | loss_of_function
deriving DecidableEq, Repr

/-- A `WeightedChoice.add_choice(cds_pos, rate, ref, alt)` record. -/
structure Entry where
  cds_pos : ℤ
  rate : ℚ
  ref : Char
  alt : Char
deriving DecidableEq, Repr

/-- `SiteRates.transdict`: base complement (a key outside ACGT would be
a `KeyError` in Python; it is never looked up on other characters). -/
def transdict (c : Char) : Char :=
  if c = 'A' then 'T' else if c = 'T' then 'A'
  else if c = 'G' then 'C' else if c = 'C' then 'G' else c

/-- `SiteRates.splice_lof_check` (lines 149-156): intronic base within
two base pairs of an exon boundary. -/
def splice_lof_check (g : Gene) (boundary_dist : ℤ)
    (_initial_aa _mutated_aa : Option String) (position : ℤ) : Bool :=
  !g.in_coding_region position && decide (boundary_dist < 3)

/-- `SiteRates.nonsense_check` (lines 158-162). -/
def nonsense_check (_g : Gene) (_boundary_dist : ℤ)
    (initial_aa mutated_aa : Option String) (_position : ℤ) : Bool :=
  decide (initial_aa ≠ some "*") && decide (mutated_aa = some "*")

/-- `SiteRates.missense_check` (lines 164-175). -/
def missense_check (g : Gene) (boundary_dist : ℤ)
    (initial_aa mutated_aa : Option String) (position : ℤ) : Bool :=
  if nonsense_check g boundary_dist initial_aa mutated_aa position
      || splice_lof_check g boundary_dist initial_aa mutated_aa position then false
  else decide (initial_aa ≠ mutated_aa)

/-- `SiteRates.splice_region_check` (lines 177-194). -/
def splice_region_check (g : Gene) (boundary_dist : ℤ)
    (initial_aa mutated_aa : Option String) (position : ℤ) : Bool :=
  if splice_lof_check g boundary_dist initial_aa mutated_aa position
      || decide (initial_aa ≠ mutated_aa) then false
  else if g.in_coding_region position = true then decide (boundary_dist < 4)
  else decide (boundary_dist < 9)

/-- `SiteRates.synonymous_check` (lines 196-203). -/
def synonymous_check (g : Gene) (boundary_dist : ℤ)
    (initial_aa mutated_aa : Option String) (position : ℤ) : Bool :=
  !nonsense_check g boundary_dist initial_aa mutated_aa position
    && !splice_lof_check g boundary_dist initial_aa mutated_aa position
    && !missense_check g boundary_dist initial_aa mutated_aa position
    && !splice_region_check g boundary_dist initial_aa mutated_aa position

/-- The `if/elif` chain of `check_position` (lines 244-253).  The chain
has no final `else`: if no predicate matched, `category` would be
unbound in Python, modelled by `none` (proved unreachable below). -/
def classify (g : Gene) (boundary_dist : ℤ)
    (initial_aa mutated_aa : Option String) (bp : ℤ) : Option Category :=
  if nonsense_check g boundary_dist initial_aa mutated_aa bp then some .nonsense
  else if splice_lof_check g boundary_dist initial_aa mutated_aa bp then some .splice_lof
  else if missense_check g boundary_dist initial_aa mutated_aa bp then some .missense
  else if splice_region_check g boundary_dist initial_aa mutated_aa bp then some .splice_region
  else if synonymous_check g boundary_dist initial_aa mutated_aa bp then some .synonymous
  else none

/-- The five classification predicates in their evaluation order
(`loss_of_function` is an aggregate, not a predicate of the chain). -/
def classification_order : List Category :=
  [.nonsense, .splice_lof, .missense, .splice_region, .synonymous]

/-- The predicate that the `check_position` chain evaluates for a given
category. -/
def category_check (c : Category) (g : Gene) (boundary_dist : ℤ)
    (initial_aa mutated_aa : Option String) (bp : ℤ) : Bool :=
  match c with
  | .nonsense => nonsense_check g boundary_dist initial_aa mutated_aa bp
  | .splice_lof => splice_lof_check g boundary_dist initial_aa mutated_aa bp
  | .missense => missense_check g boundary_dist initial_aa mutated_aa bp
  | .splice_region => splice_region_check g boundary_dist initial_aa mutated_aa bp
  | .synonymous => synonymous_check g boundary_dist initial_aa mutated_aa bp
  | .loss_of_function => false

/-- Guard at lines 214-215: a masked transcript blocks positions inside
its coding region. -/
def maskedBlocks : Option Gene → ℤ → Bool
  | none, _ => false
  | some m, bp => m.in_coding_region bp

/-- `self.bases - set(seq[1])` (line 237): the alternate bases.  Python
iterates a set in unspecified order; the fixed order here only affects
the order of sampler insertions, which no claim depends on. -/
def alt_bases (ref : Char) : List Char :=
  ['A', 'C', 'G', 'T'].filter (fun b => b ≠ ref)

/-- Lines 222-226: the trinucleotide context, reverse-complemented for
minus-strand genes. -/
def strand_seq (g : Gene) (bp : ℤ) : Seq3 :=
  if g.get_strand = "-" then g.reverse_complement (g.get_trinucleotide bp)
  else g.get_trinucleotide bp

/-- Lines 239-242: the mutated amino acid for one alternate base; it
stays `initial_aa` (i.e. `None`) when `initial_aa` is `None`, and
otherwise re-translates the mutated codon (whose sequence and
intra-codon offset are always present alongside a present
`initial_aa`, as `get_codon_info` sets all four together). -/
def mutated_aa_for (g : Gene) (codon : CodonInfo) (base : Char) : Option String :=
  match codon.initial_aa, codon.codon_seq, codon.intra_codon with
  | some _, some cs, some ic => some (get_mutated_aa g base cs ic)
  | _, _, _ => codon.initial_aa

/-- Lines 262-265: the sampler insertions for one classified
position/alternate pair — one insertion into the category's own
sampler, plus one into `loss_of_function` when the category is
`nonsense` or `splice_lof`.  The `none` case models the `if/elif` chain
falling through with `category` unbound (proved unreachable). -/
def emit_list (cl : Option Category) (e : Entry) : List (Category × Entry) :=
  match cl with
  | none => []
  | some category =>
      (category, e) ::
        (if category = .nonsense ∨ category = .splice_lof then
          [(.loss_of_function, e)] else [])

/-- `SiteRates.check_position` (lines 205-265), as the ordered list of
`(category, entry)` sampler insertions it performs.  `mut_dict` maps a
reference context and an alternate context to a rate. -/
def check_position (g : Gene) (mut_dict : Seq3 → Seq3 → ℚ) (masked : Option Gene)
    (bp : ℤ) : List (Category × Entry) :=
  if maskedBlocks masked bp = true then []
  else if bp < min g.get_cds_start g.get_cds_end ∨ bp > max g.get_cds_start g.get_cds_end then []
  else
    match get_codon_info g bp (get_boundary_distance g bp) with
    | .error _ => []
    | .ok codon =>
        (alt_bases (strand_seq g bp).c1).flatMap (fun base =>
          emit_list
            (classify g (get_boundary_distance g bp) codon.initial_aa
              (mutated_aa_for g codon base) bp)
            ⟨codon.cds_pos, mut_dict (strand_seq g bp) ⟨(strand_seq g bp).c0, base, (strand_seq g bp).c2⟩,
              (if g.get_strand = "-" then transdict (strand_seq g bp).c1 else (strand_seq g bp).c1),
              (if g.get_strand = "-" then transdict base else base)⟩)

/-- `get_gene_range` (lines 64-83) as the list of positions the
`SiteRates` constructor walks (line 129). -/
def gene_range_list (g : Gene) : List ℤ :=
  (List.range (max g.get_cds_start g.get_cds_end + 1 - min g.get_cds_start g.get_cds_end).toNat).map
    (fun k => min g.get_cds_start g.get_cds_end + (k : ℤ))

/-- All sampler insertions performed while constructing `SiteRates`
(`__init__`, lines 119-130). -/
def site_rates_entries (g : Gene) (mut_dict : Seq3 → Seq3 → ℚ)
    (masked : Option Gene) : List (Category × Entry) :=
  (gene_range_list g).flatMap (check_position g mut_dict masked)

/-- Selects the aggregate `loss_of_function` insertions. -/
def is_lof (p : Category × Entry) : Bool :=
  match p.1 with
  | .loss_of_function => true
  | _ => false

/-- Selects the `nonsense` and `splice_lof` insertions. -/
def is_nonsense_or_splice_lof (p : Category × Entry) : Bool :=
  match p.1 with
  | .nonsense => true
  | .splice_lof => true
  | _ => false

/-!
Helper lemmas.  First: `pyle` is a decidable linear order (needed for
the sortedness and permutation reasoning about `dist.sort()`).
-/

theorem str_le_refl : ∀ a : List Char, str_le a a = true
  | [] => rfl
  | c :: cs => by simp [str_le, str_le_refl cs]

theorem str_le_total : ∀ a b : List Char, str_le a b = true ∨ str_le b a = true
  | [], _ => .inl rfl
  | _ :: _, [] => .inr rfl
  | a :: as, b :: bs => by
      rcases lt_trichotomy a b with h | h | h
      · exact .inl (by simp [str_le, h])
      · subst h
        rcases str_le_total as bs with h2 | h2
        · exact .inl (by simp [str_le, h2])
        · exact .inr (by simp [str_le, h2])
      · exact .inr (by simp [str_le, h])

theorem str_le_cons {a b : Char} {as bs : List Char} :
    str_le (a :: as) (b :: bs) = true ↔ a < b ∨ (a = b ∧ str_le as bs = true) := by
  by_cases h1 : a < b <;> by_cases h2 : a = b <;> simp [str_le, h1, h2]

theorem str_le_trans : ∀ a b c : List Char,
    str_le a b = true → str_le b c = true → str_le a c = true
  | [], _, _, _, _ => rfl
  | _ :: _, [], _, hab, _ => by simp [str_le] at hab
  | _ :: _, _ :: _, [], _, hbc => by simp [str_le] at hbc
  | a :: as, b :: bs, c :: cs, hab, hbc => by
      rw [str_le_cons] at hab hbc ⊢
      rcases hab with h1 | ⟨rfl, h1⟩
      · rcases hbc with h2 | ⟨rfl, h2⟩
        · exact .inl (lt_trans h1 h2)
        · exact .inl h1
      · rcases hbc with h2 | ⟨rfl, h2⟩
        · exact .inl h2
        · exact .inr ⟨rfl, str_le_trans as bs cs h1 h2⟩

theorem str_le_antisymm : ∀ a b : List Char,
    str_le a b = true → str_le b a = true → a = b
  | [], [], _, _ => rfl
  | [], _ :: _, _, hba => by simp [str_le] at hba
  | _ :: _, [], hab, _ => by simp [str_le] at hab
  | a :: as, b :: bs, hab, hba => by
      rw [str_le_cons] at hab hba
      rcases hab with h1 | ⟨rfl, h1⟩
      · rcases hba with h2 | ⟨rfl, h2⟩
        · exact absurd h2 (not_lt_of_lt h1)
        · exact absurd h1 (lt_irrefl _)
      · rcases hba with h2 | ⟨-, h2⟩
        · exact absurd h2 (lt_irrefl _)
        · rw [str_le_antisymm as bs h1 h2]

instance : IsTotal PyVal PyLe :=
  ⟨by
    intro a b
    cases a <;> cases b <;> simp [PyLe, pyle]
    · exact le_total _ _
    · exact str_le_total _ _⟩

instance : IsTrans PyVal PyLe :=
  ⟨by
    intro a b c hab hbc
    cases a <;> cases b <;> cases c <;> simp [PyLe, pyle] at hab hbc ⊢
    · exact le_trans hab hbc
    · exact str_le_trans _ _ _ hab hbc⟩

instance : IsAntisymm PyVal PyLe :=
  ⟨by
    intro a b hab hba
    cases a <;> cases b <;> simp [PyLe, pyle] at hab hba ⊢
    · exact le_antisymm hab hba
    · exact String.ext (str_le_antisymm _ _ hab hba)⟩

theorem pyle_refl (a : PyVal) : pyle a a = true := by
  cases a <;> simp [pyle]
  exact str_le_refl _

/-!
Lemmas about `pysort`, `sim_go` and `simulate_distribution`.
-/

theorem pysort_perm (l : List PyVal) : List.Perm (pysort l) l :=
  List.perm_insertionSort PyLe l

theorem pysort_sorted (l : List PyVal) : List.Sorted PyLe (pysort l) :=
  List.sorted_insertionSort PyLe l

theorem pysort_length (l : List PyVal) : (pysort l).length = l.length :=
  List.length_insertionSort PyLe l

theorem pysort_eq_of_perm {l l2 : List PyVal} (h : List.Perm l l2) : pysort l = pysort l2 :=
  List.eq_of_perm_of_sorted ((pysort_perm l).trans (h.trans (pysort_perm l2).symm))
    (pysort_sorted l) (pysort_sorted l2)

/-- Unrolling the simulation loop: `fuel` passes append the trial scores
for trials `dist.length, dist.length + 1` and so on. -/
theorem sim_go_spec (get_score : List ℤ → PyVal) (draw : ℕ → ℤ) (sample_n : ℕ) :
    ∀ (fuel : ℕ) (dist : List PyVal),
      sim_go get_score draw sample_n dist fuel
        = dist ++ (List.range fuel).map
            (fun k => trialScore get_score draw sample_n (dist.length + k)) := by
  intro fuel
  induction fuel with
  | zero => intro dist; simp [sim_go]
  | succ fuel ih =>
      intro dist
      rw [sim_go, ih]
      have hlen : (dist ++ [trialScore get_score draw sample_n dist.length]).length
          = dist.length + 1 := by simp
      have hfun : ((fun k => trialScore get_score draw sample_n (dist.length + k)) ∘ Nat.succ)
          = fun k => trialScore get_score draw sample_n (dist.length + 1 + k) := by
        funext k
        simp only [Function.comp_apply]
        congr 1
        omega
      rw [hlen, List.range_succ_eq_map, List.map_cons, List.map_map, hfun, List.append_assoc]
      simp

/-- The simulated distribution after all trials `0` to `m - 1`, sorted. -/
def sortedTrials (get_score : List ℤ → PyVal) (draw : ℕ → ℤ) (sample_n m : ℕ) : List PyVal :=
  pysort ((List.range m).map (trialScore get_score draw sample_n))

theorem sortedTrials_length (get_score : List ℤ → PyVal) (draw : ℕ → ℤ)
    (sample_n m : ℕ) : (sortedTrials get_score draw sample_n m).length = m := by
  simp [sortedTrials, pysort_length]

/-- Extending an already-sorted prefix of trials to `K` trials yields
exactly the sorted list of the first `K` trial scores: the kept
distribution plus the new trials is a permutation of all `K` trials. -/
theorem simulate_sortedTrials (get_score : List ℤ → PyVal) (draw : ℕ → ℤ)
    (sample_n : ℕ) {m K : ℕ} (h : m ≤ K) :
    simulate_distribution get_score draw (sortedTrials get_score draw sample_n m) sample_n K
      = sortedTrials get_score draw sample_n K := by
  rw [simulate_distribution, sim_go_spec, sortedTrials_length]
  apply pysort_eq_of_perm
  have hperm : List.Perm
      (sortedTrials get_score draw sample_n m
        ++ (List.range (K - m)).map (fun k => trialScore get_score draw sample_n (m + k)))
      ((List.range m).map (trialScore get_score draw sample_n)
        ++ (List.range (K - m)).map (fun k => trialScore get_score draw sample_n (m + k))) :=
    (pysort_perm _).append_right _
  have heq : (List.range m).map (trialScore get_score draw sample_n)
        ++ (List.range (K - m)).map (fun k => trialScore get_score draw sample_n (m + k))
      = (List.range K).map (trialScore get_score draw sample_n) := by
    have hcomp : (fun k => trialScore get_score draw sample_n (m + k))
        = trialScore get_score draw sample_n ∘ (fun k => m + k) := rfl
    rw [hcomp, ← List.map_map, ← List.map_append, ← List.range_add]
    congr 2
    omega
  exact hperm.trans (heq ▸ List.Perm.refl _)

/-- When every trial score exceeds the observed value, the right-side
insertion point is 0 and the round p-value is the resolution floor. -/
theorem round_p_extreme (get_score : List ℤ → PyVal) (draw : ℕ → ℤ)
    (sample_n : ℕ) (observed : PyVal)
    (hext : ∀ t, pyle (trialScore get_score draw sample_n t) observed = false) (K : ℕ) :
    round_p (sortedTrials get_score draw sample_n K) observed = 1 / (1 + (K : ℚ)) := by
  have hcount : bisect_right (sortedTrials get_score draw sample_n K) observed = 0 := by
    rw [bisect_right, sortedTrials, (pysort_perm _).countP_eq]
    rw [List.countP_eq_zero]
    intro a ha
    obtain ⟨t, -, rfl⟩ := List.mem_map.mp ha
    simp [hext t]
  rw [round_p, hcount, sortedTrials_length]
  norm_num

/-- The adaptive loop under a maximally extreme observed value: entered
with budget `j * 10^6` (`1 ≤ j ≤ 99`, encoded by `j + t = 99`), equal
probability arguments and the sorted distribution of the previous
round, it runs rounds at `j·10^6, (j+1)·10^6, …, 99·10^6`, then stops at
the 10^8 cap, returning the floor p-value of the *last executed* round,
`1 / (1 + 99·10^6)`. -/
theorem adaptive_loop_extreme (get_score : List ℤ → PyVal) (draw : ℕ → ℤ)
    (sample_n : ℕ) (observed : PyVal)
    (hext : ∀ t, pyle (trialScore get_score draw sample_n t) observed = false) :
    ∀ (t j : ℕ) (q : ℚ) (fuel : ℕ), j + t = 99 → 1 ≤ j → t + 2 ≤ fuel →
      adaptive_loop get_score draw observed sample_n fuel (j * 1000000) q q
          (sortedTrials get_score draw sample_n ((j - 1) * 1000000))
        = (1 / 99000001, sortedTrials get_score draw sample_n 99000000) := by
  intro t
  induction t with
  | zero =>
      intro j q fuel hj hj1 hfuel
      have hj99 : j = 99 := by omega
      subst hj99
      obtain ⟨f, rfl⟩ : ∃ f, fuel = f + 1 := ⟨fuel - 1, by omega⟩
      rw [adaptive_loop, if_pos (by norm_num)]
      rw [show (99 - 1) * 1000000 = 98000000 by norm_num] at *
      rw [show 99 * 1000000 = 99000000 by norm_num]
      rw [simulate_sortedTrials get_score draw sample_n (by norm_num)]
      rw [round_p_extreme get_score draw sample_n observed hext]
      obtain ⟨f2, rfl⟩ : ∃ f2, f = f2 + 1 := ⟨f - 1, by omega⟩
      rw [adaptive_loop, if_neg (by norm_num)]
      norm_num
  | succ t ih =>
      intro j q fuel hj hj1 hfuel
      obtain ⟨f, rfl⟩ : ∃ f, fuel = f + 1 := ⟨fuel - 1, by omega⟩
      rw [adaptive_loop, if_pos ⟨by omega, rfl⟩]
      rw [simulate_sortedTrials get_score draw sample_n
        (Nat.mul_le_mul_right 1000000 (by omega))]
      rw [round_p_extreme get_score draw sample_n observed hext]
      have hstep : j * 1000000 + 1000000 = (j + 1) * 1000000 := by ring
      have hprev : j * 1000000 = ((j + 1) - 1) * 1000000 := by omega
      rw [hstep]
      rw [show (sortedTrials get_score draw sample_n (j * 1000000))
          = sortedTrials get_score draw sample_n (((j + 1) - 1) * 1000000) by rw [← hprev]]
      have hcast : (1 : ℚ) / (1 + ((j * 1000000 : ℕ) : ℚ))
          = 1 / (1 + ((j * 1000000 : ℕ) : ℚ)) := rfl
      exact ih (j + 1) (1 / (1 + ((j * 1000000 : ℕ) : ℚ))) f (by omega) (by omega) (by omega)

/-- Running `analyse_de_novos` with the default 1,000,000-iteration
start on an observed value below every simulated score: the loop runs
rounds at 1·10^6 through 99·10^6, stops when the budget reaches 10^8,
and reports the last round's floor p-value `1 / (1 + 99·10^6)`. -/
theorem analyse_extreme (convert : ℤ → Except PyErr ℤ) (get_score : List ℤ → PyVal)
    (draw : ℕ → ℤ) (de_novos cds : List ℤ) (q0 : ℚ)
    (hlen : 2 ≤ de_novos.length)
    (hconv : convert_de_novos_to_cds_positions convert de_novos = .ok cds)
    (hobs : get_score cds = .num q0)
    (hext : ∀ t, pyle (trialScore get_score draw de_novos.length t) (.num q0) = false) :
    analyse_de_novos convert get_score draw de_novos 1000000
      = .ok (.str (format_1dp q0), .num (1 / 99000001)) := by
  rw [analyse_de_novos, if_neg (by omega), hconv]
  dsimp only
  rw [hobs]
  have hcall := adaptive_loop_extreme get_score draw de_novos.length (.num q0) hext
    98 1 (1 / (1 + ((1000000 : ℕ) : ℚ))) 101 (by norm_num) (by norm_num) (by norm_num)
  rw [show ((1 : ℕ) - 1) * 1000000 = 0 by norm_num] at hcall
  rw [show (1 : ℕ) * 1000000 = 1000000 by norm_num] at hcall
  have hnil : sortedTrials get_score draw de_novos.length 0 = [] := rfl
  rw [hnil] at hcall
  rw [hcall]
  rfl

/-- The transcript conversion used in the concrete maximally-extreme
scenario: every position maps to CDS position 0. -/
def convert_zero : ℤ → Except PyErr ℤ := fun _ => .ok 0

/-- The scoring strategy of the scenario: the observed pair of CDS
positions `[0, 0]` scores 0, anything else scores 1. -/
def score_pair_indicator : List ℤ → PyVal :=
  fun l => if l = [0, 0] then .num 0 else .num 1

/-- The sampler stream of the scenario: every draw yields position 1. -/
def draw_one : ℕ → ℤ := fun _ => 1

/-- C1 counterexample.  In the concrete maximally-extreme scenario
(every simulated trial scores 1, the observed pair scores 0, so the
p-value sits on the resolution floor in every round), the engine
terminates at the cap but returns `1 / (1 + 99·10^6)`, which differs
from the claimed `1 / (1 + 10^8)`: the loop stops *before* running a
round at `I = 10^8`, so the last executed round has `I = 99·10^6`. -/
theorem c1_cap_counterexample :
    analyse_de_novos convert_zero score_pair_indicator draw_one [10, 20] 1000000
        = .ok (.str (format_1dp 0), .num (1 / 99000001))
      ∧ (1 : ℚ) / 99000001 ≠ 1 / (1 + 10 ^ 8) := by
  constructor
  · exact analyse_extreme convert_zero score_pair_indicator draw_one [10, 20] [0, 0] 0
      (by norm_num) rfl rfl (fun t => rfl)
  · norm_num

/-- C1 (amended): if the observed value stays maximally extreme (every
simulated trial scores strictly above it, so the computed p-value
equals the resolution floor in every round), the adaptive loop
terminates once the budget reaches the 100,000,000 cap, and the
returned p-value is the floor of the last executed round,
`1 / (1 + 99,000,000)` — not `1 / (1 + 10^8)`. -/
theorem c1_cap_termination (convert : ℤ → Except PyErr ℤ) (get_score : List ℤ → PyVal)
    (draw : ℕ → ℤ) (de_novos cds : List ℤ) (q0 : ℚ)
    (hlen : 2 ≤ de_novos.length)
    (hconv : convert_de_novos_to_cds_positions convert de_novos = .ok cds)
    (hobs : get_score cds = .num q0)
    (hext : ∀ t, pyle (trialScore get_score draw de_novos.length t) (.num q0) = false) :
    analyse_de_novos convert get_score draw de_novos 1000000
      = .ok (.str (format_1dp q0), .num (1 / (1 + 99000000))) := by
  rw [analyse_extreme convert get_score draw de_novos cds q0 hlen hconv hobs hext]
  norm_num

/-- Witness for `c1_cap_termination` at the concrete scenario. -/
theorem c1_cap_termination_witness :
    2 ≤ ([10, 20] : List ℤ).length
      ∧ analyse_de_novos convert_zero score_pair_indicator draw_one [10, 20] 1000000
          = .ok (.str (format_1dp 0), .num (1 / (1 + 99000000))) :=
  ⟨by norm_num,
    c1_cap_termination convert_zero score_pair_indicator draw_one [10, 20] [0, 0] 0
      (by norm_num) rfl rfl (fun t => rfl)⟩

/-- C3: in each round the p-value is `(1 + rank) / (1 + |D|)` where
`rank` is the number of elements of the sorted null distribution that
are `≤` the observed value (the right-side insertion point); on
`D = [1,2,3,4,5]` with observed value 3 this gives `(1+3)/(1+5)`. -/
theorem c3_p_value_formula :
    (∀ (D : List PyVal) (x : PyVal),
        round_p D x = (1 + (D.countP (fun y => pyle y x) : ℚ)) / (1 + (D.length : ℚ)))
      ∧ bisect_right [.num 1, .num 2, .num 3, .num 4, .num 5] (.num 3) = 3
      ∧ round_p [.num 1, .num 2, .num 3, .num 4, .num 5] (.num 3) = (1 + 3) / (1 + 5) := by
  refine ⟨fun D x => rfl, by decide, ?_⟩
  rw [round_p, show bisect_right [.num 1, .num 2, .num 3, .num 4, .num 5] (.num 3) = 3
    by decide]
  norm_num

/-- C5: with fewer than two observed de novos, `analyse_de_novos`
returns `("NA", "NA")` immediately, for every conversion function,
scoring strategy and sampler — in particular also when conversion of
any position would fail, showing no conversion or simulation happens. -/
theorem c5_fewer_than_two (convert : ℤ → Except PyErr ℤ) (get_score : List ℤ → PyVal)
    (draw : ℕ → ℤ) (de_novos : List ℤ) (iterations : ℕ)
    (hlen : de_novos.length < 2) :
    analyse_de_novos convert get_score draw de_novos iterations
      = .ok (.str "NA", .str "NA") := by
  rw [analyse_de_novos, if_pos hlen]

/-- Witness for `c5_fewer_than_two`: one observed position and an
always-failing conversion still yield `("NA", "NA")`. -/
theorem c5_fewer_than_two_witness :
    ([5] : List ℤ).length < 2
      ∧ analyse_de_novos (fun _ => .error .valueError) (fun _ => .num 0) (fun _ => 0)
          [5] 1000000 = .ok (.str "NA", .str "NA") :=
  ⟨by norm_num,
    c5_fewer_than_two (fun _ => .error .valueError) (fun _ => .num 0) (fun _ => 0)
      [5] 1000000 (by norm_num)⟩

/-- C6 counterexample.  Two consecutive calls to
`simulate_distribution` that rely on the shared mutable default `dist`:
after the first call (3 trials, each scoring 7) the default object is
no longer empty, and the second call's result still contains the values
simulated by the first call. -/
theorem c6_default_accumulates_counterexample :
    (simulate_distribution_default (fun _ => .num 7) (fun _ => 0) 2 3 []).2 ≠ []
      ∧ .num 7 ∈ (simulate_distribution_default (fun _ => .num 9) (fun _ => 0) 2 5
          (simulate_distribution_default (fun _ => .num 7) (fun _ => 0) 2 3 []).2).1 := by
  decide

/-- C6 (amended): `analyse_de_novos` allocates its accumulator locally
(`dist = []`) and always passes it explicitly, so an analysis call
neither reads nor writes the shared default object: after two
consecutive analysis calls the second call's result equals a
from-scratch call's result and the shared state is untouched.  (The
claim fails for `simulate_distribution` itself when callers rely on its
mutable default argument, per the counterexample.) -/
theorem c6_analysis_accumulator_fresh :
    ∀ (convert1 convert2 : ℤ → Except PyErr ℤ) (gs1 gs2 : List ℤ → PyVal)
      (draw1 draw2 : ℕ → ℤ) (dn1 dn2 : List ℤ) (it1 it2 : ℕ) (st : List PyVal),
      (analyse_de_novos_st convert2 gs2 draw2 dn2 it2
          (analyse_de_novos_st convert1 gs1 draw1 dn1 it1 st).2).1
        = (analyse_de_novos_st convert2 gs2 draw2 dn2 it2 []).1
      ∧ (analyse_de_novos_st convert2 gs2 draw2 dn2 it2
          (analyse_de_novos_st convert1 gs1 draw1 dn1 it1 st).2).2 = st :=
  fun _ _ _ _ _ _ _ _ _ _ _ => ⟨rfl, rfl⟩

/-- C7: with at least two observed positions and a scoring strategy
returning the string `"NA"`, `analyse_de_novos` does *not* return a
pair: the dead guard `type(observed_value) != "str"` (a type object
compared to a string literal, always true) sends `"NA"` into the
`0.1f` format, which raises `ValueError`. -/
theorem c7_na_observed_raises :
    analyse_de_novos (fun p => .ok p) (fun _ => .str "NA") (fun _ => 0) [3, 7] 1000000
      = .error .valueError := rfl

/-- C8: with at least two observed positions, a failing coordinate
conversion propagates out of `analyse_de_novos` unchanged, for every
scoring strategy, sampler stream and iteration budget — the error
surfaces before any observed statistic is computed or any simulation
is run. -/
theorem c8_conversion_error_propagates (convert : ℤ → Except PyErr ℤ)
    (de_novos : List ℤ) (e : PyErr)
    (hlen : 2 ≤ de_novos.length)
    (hconv : convert_de_novos_to_cds_positions convert de_novos = .error e) :
    ∀ (get_score : List ℤ → PyVal) (draw : ℕ → ℤ) (iterations : ℕ),
      analyse_de_novos convert get_score draw de_novos iterations = .error e := by
  intro get_score draw iterations
  rw [analyse_de_novos, if_neg (by omega), hconv]

/-- Witness for `c8_conversion_error_propagates`: the first observed
position fails to convert. -/
theorem c8_conversion_error_propagates_witness :
    2 ≤ ([10, 20] : List ℤ).length
      ∧ analyse_de_novos (fun p => if p = 10 then .error .valueError else .ok p)
          (fun _ => .num 0) (fun _ => 0) [10, 20] 1000000 = .error .valueError :=
  ⟨by norm_num,
    c8_conversion_error_propagates (fun p => if p = 10 then .error .valueError else .ok p)
      [10, 20] .valueError (by norm_num) rfl (fun _ => .num 0) (fun _ => 0) 1000000⟩

/-- C9: `geomean [2, 8] = 4`; `geomean [0, 0] = 0`; and every list
containing a 0 goes through the shift-by-one correction (add 1 to every
value, take the n-th root of the product, subtract 1) and returns a
value rather than raising: a list containing 0 is nonempty, so the
`1/len(values)` exponent never divides by zero. -/
theorem c9_geomean :
    geomean [2, 8] = .ok 4
      ∧ geomean [0, 0] = .ok 0
      ∧ ∀ values : List ℚ, 0 ∈ values →
          geomean values
            = .ok (((product (values.map (· + 1)) : ℚ) : ℝ)
                ^ ((1 : ℝ) / ((values.map (· + 1)).length : ℝ)) - 1) := by
  refine ⟨?_, ?_, ?_⟩
  · rw [geomean, if_neg (by norm_num), if_neg (by norm_num)]
    have hp : ((product [2, 8] : ℚ) : ℝ) = 16 := by norm_num [product]
    rw [hp]
    norm_num
    rw [show (16 : ℝ) = (4 : ℝ) ^ (2 : ℕ) by norm_num, ← Real.rpow_natCast,
      ← Real.rpow_mul (by norm_num)]
    norm_num
  · rw [geomean, if_pos (by norm_num)]
    have hp : ((product ([0, 0].map (· + (1 : ℚ))) : ℚ) : ℝ) = 1 := by
      norm_num [product]
    simp only [List.length_map]
    rw [if_neg (by norm_num), hp, Real.one_rpow]
    norm_num
  · intro values hv
    have hne : values ≠ [] := List.ne_nil_of_mem hv
    rw [geomean, if_pos hv, if_neg (by simpa using hne)]

/-- Witness for the quantified part of `c9_geomean` at `[0, 0]`. -/
theorem c9_geomean_witness :
    (0 : ℚ) ∈ ([0, 0] : List ℚ)
      ∧ geomean [0, 0]
          = .ok (((product (([0, 0] : List ℚ).map (· + 1)) : ℚ) : ℝ)
              ^ ((1 : ℝ) / ((([0, 0] : List ℚ).map (· + 1)).length : ℝ)) - 1) :=
  ⟨by norm_num, c9_geomean.2.2 [0, 0] (by norm_num)⟩

/-- C2: for every position/alternate pair reaching the classification
chain (any transcript, boundary distance and amino-acid pair), the
`check_position` chain assigns exactly one category: it equals the
first-match-wins scan of the five predicates in the priority order
nonsense > splice_lof > missense > splice_region > synonymous, and the
result is never `none` (the synonymous predicate is the conjunction of
the other four failing, so the chain is exhaustive). -/
theorem c2_classification_partition :
    ∀ (g : Gene) (boundary_dist : ℤ) (initial_aa mutated_aa : Option String) (bp : ℤ),
      classify g boundary_dist initial_aa mutated_aa bp
          = classification_order.find?
              (fun c => category_check c g boundary_dist initial_aa mutated_aa bp)
        ∧ (classify g boundary_dist initial_aa mutated_aa bp).isSome = true := by
  intro g bd ia ma bp
  cases hn : nonsense_check g bd ia ma bp with
  | true => simp [classify, classification_order, category_check, List.find?, hn]
  | false =>
  cases hsl : splice_lof_check g bd ia ma bp with
  | true => simp [classify, classification_order, category_check, List.find?, hn, hsl]
  | false =>
  cases hm : missense_check g bd ia ma bp with
  | true => simp [classify, classification_order, category_check, List.find?, hn, hsl, hm]
  | false =>
  cases hsr : splice_region_check g bd ia ma bp with
  | true =>
      simp [classify, classification_order, category_check, List.find?, hn, hsl, hm, hsr]
  | false =>
      have hsy : synonymous_check g bd ia ma bp = true := by
        simp [synonymous_check, hn, hsl, hm, hsr]
      simp [classify, classification_order, category_check, List.find?, hn, hsl, hm, hsr, hsy]

/-!
Lemmas for the loss-of-function aggregation (C4).
-/

theorem filter_flatMap_comm {α β : Type} (l : List α) (f : α → List β) (p : β → Bool) :
    (l.flatMap f).filter p = l.flatMap (fun a => (f a).filter p) := by
  induction l with
  | nil => rfl
  | cons a l ih => simp [List.flatMap_cons, List.filter_append, ih]

theorem map_flatMap_comm {α β γ : Type} (l : List α) (f : α → List β) (h : β → γ) :
    (l.flatMap f).map h = l.flatMap (fun a => (f a).map h) := by
  induction l with
  | nil => rfl
  | cons a l ih => simp [List.flatMap_cons, List.map_append, ih]

/-- The classification chain never yields the aggregate
`loss_of_function` category. -/
theorem classify_ne_lof (g : Gene) (boundary_dist : ℤ)
    (initial_aa mutated_aa : Option String) (bp : ℤ) :
    classify g boundary_dist initial_aa mutated_aa bp ≠ some .loss_of_function := by
  rw [classify]
  split_ifs <;> simp

/-- Per-insertion shape of the loss-of-function aggregation: among the
insertions for one position/alternate pair (whose category comes from
the chain, hence is never the aggregate itself), the `loss_of_function`
entries are exactly the `nonsense`-or-`splice_lof` entries. -/
theorem emit_list_lof (cl : Option Category) (e : Entry)
    (hcl : cl ≠ some .loss_of_function) :
    ((emit_list cl e).filter is_lof).map Prod.snd
      = ((emit_list cl e).filter is_nonsense_or_splice_lof).map Prod.snd := by
  cases cl with
  | none => rfl
  | some category =>
      cases category
      case loss_of_function => exact absurd rfl hcl
      all_goals simp [emit_list, is_lof, is_nonsense_or_splice_lof]

theorem check_position_lof (g : Gene) (mut_dict : Seq3 → Seq3 → ℚ)
    (masked : Option Gene) (bp : ℤ) :
    ((check_position g mut_dict masked bp).filter is_lof).map Prod.snd
      = ((check_position g mut_dict masked bp).filter is_nonsense_or_splice_lof).map Prod.snd := by
  rw [check_position]
  by_cases h1 : maskedBlocks masked bp = true
  · rw [if_pos h1]; rfl
  · rw [if_neg h1]
    by_cases h2 : bp < min g.get_cds_start g.get_cds_end
        ∨ bp > max g.get_cds_start g.get_cds_end
    · rw [if_pos h2]; rfl
    · rw [if_neg h2]
      cases get_codon_info g bp (get_boundary_distance g bp) with
      | error e => rfl
      | ok codon =>
          rw [filter_flatMap_comm, filter_flatMap_comm, map_flatMap_comm, map_flatMap_comm]
          congr 1
          funext base
          exact emit_list_lof _ _ (classify_ne_lof _ _ _ _ _)

/-- C4: over the whole `SiteRates` construction (and indeed at every
single position), the `loss_of_function` sampler insertions are exactly
the `nonsense` and `splice_lof` insertions — the same entries (same CDS
position, rate, reference and alternate base), in the same multiplicity
and order; no other category contributes. -/
theorem c4_lof_union :
    ∀ (g : Gene) (mut_dict : Seq3 → Seq3 → ℚ) (masked : Option Gene),
      ((site_rates_entries g mut_dict masked).filter is_lof).map Prod.snd
          = ((site_rates_entries g mut_dict masked).filter
              is_nonsense_or_splice_lof).map Prod.snd
        ∧ ∀ bp : ℤ,
            ((check_position g mut_dict masked bp).filter is_lof).map Prod.snd
              = ((check_position g mut_dict masked bp).filter
                  is_nonsense_or_splice_lof).map Prod.snd := by
  intro g mut_dict masked
  constructor
  · rw [site_rates_entries, filter_flatMap_comm, filter_flatMap_comm,
      map_flatMap_comm, map_flatMap_comm]
    congr 1
    funext bp
    exact check_position_lof g mut_dict masked bp
  · exact check_position_lof g mut_dict masked

/-- C10: a position outside the coding region whose boundary distance
is at least 3 and below 9 (and which passes the masking and CDS-span
guards) gets all three alternate bases classified `splice_region`:
outside the coding region both amino acids are `None`, so the
amino-acid predicates fail and the equal-amino-acid branch of the
splice-region predicate applies with the intronic distance bound. -/
theorem c10_noncoding_splice_region (g : Gene) (mut_dict : Seq3 → Seq3 → ℚ)
    (masked : Option Gene) (bp : ℤ)
    (hmask : maskedBlocks masked bp = false)
    (hlo : min g.get_cds_start g.get_cds_end ≤ bp)
    (hhi : bp ≤ max g.get_cds_start g.get_cds_end)
    (hnc : g.in_coding_region bp = false)
    (hbd3 : 3 ≤ get_boundary_distance g bp)
    (hbd9 : get_boundary_distance g bp < 9)
    (hmid : (strand_seq g bp).c1 ∈ (['A', 'C', 'G', 'T'] : List Char)) :
    (check_position g mut_dict masked bp).map Prod.fst
      = List.replicate 3 Category.splice_region := by
  have hci : get_codon_info g bp (get_boundary_distance g bp)
      = .ok ⟨g.chrom_pos_to_cds bp, none, none, none, none⟩ := by
    rw [get_codon_info, if_neg (fun h => absurd hbd9 (not_lt.mpr h.1)), hnc]
    simp
  rw [check_position, if_neg (by simp [hmask]),
    if_neg (by rintro (h | h); exacts [absurd hlo (not_le.mpr h), absurd hhi (not_le.mpr h)]),
    hci]
  dsimp only
  have hcl : ∀ base : Char,
      classify g (get_boundary_distance g bp) (none : Option String)
          (mutated_aa_for g ⟨g.chrom_pos_to_cds bp, none, none, none, none⟩ base) bp
        = some .splice_region := by
    intro base
    have hma : mutated_aa_for g ⟨g.chrom_pos_to_cds bp, none, none, none, none⟩ base
        = none := rfl
    have h1 : nonsense_check g (get_boundary_distance g bp) none none bp = false := by
      simp [nonsense_check]
    have h2 : splice_lof_check g (get_boundary_distance g bp) none none bp = false := by
      simp [splice_lof_check, hnc]
      omega
    have h3 : missense_check g (get_boundary_distance g bp) none none bp = false := by
      simp [missense_check, h1, h2]
    have h4 : splice_region_check g (get_boundary_distance g bp) none none bp = true := by
      simp [splice_region_check, h2, hnc]
      omega
    rw [hma, classify, h1, h2, h3, h4]
    rfl
  rw [map_flatMap_comm]
  simp only [hcl, emit_list]
  simp only [List.mem_cons, List.not_mem_nil, or_false] at hmid
  rcases hmid with h | h | h | h <;> rw [h] <;> rfl

/-- A concrete minus-free transcript for the C10 witness: one exon span
`(0, 100)`, CDS bounds 0 and 50, every position non-coding, plus
strand. -/
def g0 : Gene where
  get_cds_start := 0
  get_cds_end := 50
  get_strand := "+"
  in_coding_region := fun _ => false
  find_closest_exon := fun _ => (0, 100)
  chrom_pos_to_cds := fun bp => bp
  get_codon_number_for_cds_position := fun _ => 0
  get_position_within_codon := fun _ => 0
  get_codon_sequence := fun _ => ['A', 'A', 'A']
  translate := fun _ => "K"
  get_trinucleotide := fun _ => ⟨'A', 'C', 'G'⟩
  reverse_complement := fun s => s

/-- Witness for `c10_noncoding_splice_region` at `g0`, position 4
(boundary distance 4, non-coding): all three alternates are
splice_region. -/
theorem c10_noncoding_splice_region_witness :
    (maskedBlocks none 4 = false
        ∧ min g0.get_cds_start g0.get_cds_end ≤ 4
        ∧ (4 : ℤ) ≤ max g0.get_cds_start g0.get_cds_end
        ∧ g0.in_coding_region 4 = false
        ∧ 3 ≤ get_boundary_distance g0 4
        ∧ get_boundary_distance g0 4 < 9
        ∧ (strand_seq g0 4).c1 ∈ (['A', 'C', 'G', 'T'] : List Char))
      ∧ (check_position g0 (fun _ _ => 1) none 4).map Prod.fst
          = List.replicate 3 Category.splice_region :=
  ⟨⟨rfl, by decide, by decide, rfl, by decide, by decide, by decide⟩,
    c10_noncoding_splice_region g0 (fun _ _ => 1) none 4 rfl (by decide) (by decide) rfl
      (by decide) (by decide) (by decide)⟩
